import Mathlib

/-!
Verification of the HexTileBuilder core: the hex-grid coordinate transform
(`CoordinateSystem`, from the odd-q variant of the repository) and the
procedural map generator (`MapGenerator` with its static tables from
`TileTypes`).  All definitions are shallow embeddings of the TypeScript
source: JS numbers are modelled as rationals (`ℚ`) where fractional values
occur and integers (`ℤ`/`ℕ`) where the source only ever holds integers;
`Math.random()` is modelled as an explicit stream of rationals threaded
through the computation; JS runtime errors (reading `.length` of
`undefined`) are modelled with `Option`.
-/

/-! ## Coordinate system (src CoordinateSystem, odd-q variant) -/

/-- JS `Math.round`: nearest integer, half-way cases toward `+∞`. -/
def jsRound (x : ℚ) : ℤ := ⌊x + 1/2⌋

/-- JS `%` on integers is truncated remainder (`Int.tmod`): the test
`y % 2 === 1` of the source. -/
def jsModTwoEqOne (n : ℤ) : Bool := n.tmod 2 == 1

/-- Constructor state of `CoordinateSystem` (the `tileOffset` constructor
argument is unused in this variant and not stored as relevant state). -/
structure CoordinateSystem where
  hexWidth : ℚ
  hexHeight : ℚ

/-- `this.hexHorizSpacing = hexWidth * 3/4`. -/
def CoordinateSystem.hexHorizSpacing (cs : CoordinateSystem) : ℚ :=
  cs.hexWidth * 3 / 4

/-- `this.hexVertSpacing = hexHeight`. -/
def CoordinateSystem.hexVertSpacing (cs : CoordinateSystem) : ℚ :=
  cs.hexHeight

/-- `calculateIsometricPosition(q, r)`: odd-q offset placement.
`posX = q * hexHorizSpacing` plus half a horizontal spacing on odd rows
(`r % 2 === 1`), `posY = r * hexVertSpacing`. -/
def CoordinateSystem.calculateIsometricPosition (cs : CoordinateSystem)
    (q r : ℤ) : ℚ × ℚ :=
  let posX : ℚ := q * cs.hexHorizSpacing
  let posY : ℚ := r * cs.hexVertSpacing
  let posX := if jsModTwoEqOne r then posX + cs.hexHorizSpacing / 2 else posX
  (posX, posY)

/-- `screenToGrid(screenX, screenY, originX, originY)`: inverse transform,
rounding to the nearest cell and clamping both outputs at 0. -/
def CoordinateSystem.screenToGrid (cs : CoordinateSystem)
    (screenX screenY originX originY : ℚ) : ℤ × ℤ :=
  let relativeX := screenX - originX
  let relativeY := screenY - originY
  let approxRow := jsRound (relativeY / cs.hexVertSpacing)
  let adjustedX :=
    if jsModTwoEqOne approxRow then relativeX - cs.hexHorizSpacing / 2
    else relativeX
  let approxCol := jsRound (adjustedX / cs.hexHorizSpacing)
  (max 0 approxCol, max 0 approxRow)

/-! Helper lemmas about the embedded JS primitives. -/

theorem jsRound_intCast (n : ℤ) : jsRound (n : ℚ) = n := by
  unfold jsRound
  rw [add_comm, Int.floor_add_int]
  norm_num

theorem jsRound_div_self {a : ℚ} (n : ℤ) (ha : a ≠ 0) :
    jsRound ((n : ℚ) * a / a) = n := by
  rw [mul_div_assoc, div_self ha, mul_one, jsRound_intCast]

theorem tmod_two_ne_one_of_neg {n : ℤ} (h : n < 0) : n.tmod 2 ≠ 1 := by
  obtain ⟨m, rfl⟩ : ∃ m, n = Int.negSucc m := by
    cases n with
    | ofNat k => simp [Int.ofNat_eq_coe] at h; omega
    | negSucc m => exact ⟨m, rfl⟩
  show -(((m.succ % 2 : ℕ) : ℤ)) ≠ 1
  have : m.succ % 2 = 0 ∨ m.succ % 2 = 1 := by omega
  rcases this with h1 | h1 <;> rw [h1] <;> decide

theorem tmod_two_of_nonneg {n : ℤ} (h : 0 ≤ n) : n.tmod 2 = n % 2 :=
  Int.tmod_eq_emod h (by norm_num)

/-- The standard configuration of the repository:
`new CoordinateSystem(128, 112, 0.75)` (tileOffset is unused here). -/
def hexTileMapCS : CoordinateSystem := ⟨128, 112⟩

/-- C1 (Round-trip law): for every column `c ≥ 0` and row `r ≥ 0`, with
positive tile geometry, converting the grid cell to pixels with
`calculateIsometricPosition` and back with `screenToGrid` (origin 0,0)
returns the same cell. -/
theorem calculateIsometricPosition_screenToGrid_roundTrip
    (cs : CoordinateSystem) (hw : 0 < cs.hexWidth) (hh : 0 < cs.hexHeight)
    (c r : ℤ) (hc : 0 ≤ c) (hr : 0 ≤ r) :
    cs.screenToGrid (cs.calculateIsometricPosition c r).1
      (cs.calculateIsometricPosition c r).2 0 0 = (c, r) := by
  have hhs : cs.hexHorizSpacing ≠ 0 := by
    unfold CoordinateSystem.hexHorizSpacing
    positivity
  have hvs : cs.hexVertSpacing ≠ 0 := by
    unfold CoordinateSystem.hexVertSpacing
    positivity
  simp only [CoordinateSystem.calculateIsometricPosition,
    CoordinateSystem.screenToGrid, sub_zero]
  have hrow : jsRound ((r : ℚ) * cs.hexVertSpacing / cs.hexVertSpacing) = r :=
    jsRound_div_self r hvs
  by_cases hodd : jsModTwoEqOne r
  · simp only [hodd, if_true, hrow, add_sub_cancel_right,
      jsRound_div_self c hhs]
    rw [max_eq_right hc, max_eq_right hr]
  · simp only [hodd, if_false, hrow, jsRound_div_self c hhs,
      Bool.false_eq_true]
    rw [max_eq_right hc, max_eq_right hr]

/-- Witness for C1 at the repository configuration with `(c, r) = (3, 5)`. -/
theorem calculateIsometricPosition_screenToGrid_roundTrip_witness :
    hexTileMapCS.screenToGrid
      (hexTileMapCS.calculateIsometricPosition 3 5).1
      (hexTileMapCS.calculateIsometricPosition 3 5).2 0 0 = (3, 5) :=
  calculateIsometricPosition_screenToGrid_roundTrip hexTileMapCS
    (by norm_num [hexTileMapCS]) (by norm_num [hexTileMapCS])
    3 5 (by norm_num) (by norm_num)

/-- C8 counterexample: at the repository geometry, with `c = 0` and `r = 1`,
exactly one of `r, r + 1` is odd (namely `r = 1`), yet
`toPixel(0, 2).x - toPixel(0, 1).x = -horizSpacing/2`, not `+horizSpacing/2`
as the claim states. -/
theorem offsetParity_counterexample :
    ((1 : ℤ).tmod 2 = 1 ∧ (2 : ℤ).tmod 2 ≠ 1) ∧
    ¬ ((hexTileMapCS.calculateIsometricPosition 0 2).1
        - (hexTileMapCS.calculateIsometricPosition 0 1).1
        = hexTileMapCS.hexHorizSpacing / 2) := by
  refine ⟨⟨by decide, by decide⟩, ?_⟩
  have h1 : jsModTwoEqOne 1 = true := by decide
  have h2 : jsModTwoEqOne 2 = false := by decide
  simp only [CoordinateSystem.calculateIsometricPosition, h1, h2,
    if_true, if_false, Bool.false_eq_true]
  norm_num [hexTileMapCS, CoordinateSystem.hexHorizSpacing]

/-- C8 amended: the column-spacing part holds unchanged for every row, but
the row-to-row x-shift is `+horizSpacing/2` only when `r ≥ 0` is even,
`-horizSpacing/2` when `r ≥ 0` is odd (the shift alternates in sign rather
than being `horizSpacing/2` whenever exactly one of `r, r+1` is odd), and
`0` when `r < 0` (the JS parity test `r % 2 === 1` is false for every
negative row, so no offset is ever applied there). -/
theorem offsetParity_amended (cs : CoordinateSystem) (c r : ℤ) :
    ((cs.calculateIsometricPosition c r).1
        - (cs.calculateIsometricPosition (c + 1) r).1
        = -cs.hexHorizSpacing)
    ∧ (0 ≤ r → r % 2 = 0 →
        (cs.calculateIsometricPosition c (r + 1)).1
          - (cs.calculateIsometricPosition c r).1
          = cs.hexHorizSpacing / 2)
    ∧ (0 ≤ r → r % 2 = 1 →
        (cs.calculateIsometricPosition c (r + 1)).1
          - (cs.calculateIsometricPosition c r).1
          = -(cs.hexHorizSpacing / 2))
    ∧ (r < 0 →
        (cs.calculateIsometricPosition c (r + 1)).1
          - (cs.calculateIsometricPosition c r).1
          = 0) := by
  refine ⟨?_, ?_, ?_, ?_⟩
  · simp only [CoordinateSystem.calculateIsometricPosition]
    by_cases hodd : jsModTwoEqOne r <;> simp [hodd] <;> ring
  · intro h0 he
    have h1 : jsModTwoEqOne r = false := by
      simp only [jsModTwoEqOne, beq_iff_eq, beq_eq_false_iff_ne, ne_eq]
      rw [tmod_two_of_nonneg h0, he]
      norm_num
    have h2 : jsModTwoEqOne (r + 1) = true := by
      simp only [jsModTwoEqOne, beq_iff_eq]
      rw [tmod_two_of_nonneg (by omega)]
      omega
    simp only [CoordinateSystem.calculateIsometricPosition, h1, h2,
      if_true, if_false, Bool.false_eq_true]
    ring
  · intro h0 he
    have h1 : jsModTwoEqOne r = true := by
      simp only [jsModTwoEqOne, beq_iff_eq]
      rw [tmod_two_of_nonneg h0, he]
    have h2 : jsModTwoEqOne (r + 1) = false := by
      simp only [jsModTwoEqOne, beq_iff_eq, beq_eq_false_iff_ne, ne_eq]
      rw [tmod_two_of_nonneg (by omega)]
      omega
    simp only [CoordinateSystem.calculateIsometricPosition, h1, h2,
      if_true, if_false, Bool.false_eq_true]
    ring
  · intro hneg
    have h1 : jsModTwoEqOne r = false := by
      simp only [jsModTwoEqOne, beq_eq_false_iff_ne, ne_eq]
      exact tmod_two_ne_one_of_neg hneg
    have h2 : jsModTwoEqOne (r + 1) = false := by
      rcases lt_or_eq_of_le (by omega : r + 1 ≤ 0) with h | h
      · simp only [jsModTwoEqOne, beq_eq_false_iff_ne, ne_eq]
        exact tmod_two_ne_one_of_neg h
      · rw [h]
        decide
    simp only [CoordinateSystem.calculateIsometricPosition, h1, h2,
      if_false, Bool.false_eq_true]
    ring

/-- Witness for C8 amended: each conjunct instantiated at the repository
geometry (`c = 0`; rows `2`, `2`, `1`, `-2` respectively). -/
theorem offsetParity_amended_witness :
    ((hexTileMapCS.calculateIsometricPosition 0 2).1
        - (hexTileMapCS.calculateIsometricPosition 1 2).1
        = -hexTileMapCS.hexHorizSpacing)
    ∧ ((hexTileMapCS.calculateIsometricPosition 0 3).1
        - (hexTileMapCS.calculateIsometricPosition 0 2).1
        = hexTileMapCS.hexHorizSpacing / 2)
    ∧ ((hexTileMapCS.calculateIsometricPosition 0 2).1
        - (hexTileMapCS.calculateIsometricPosition 0 1).1
        = -(hexTileMapCS.hexHorizSpacing / 2))
    ∧ ((hexTileMapCS.calculateIsometricPosition 0 (-1)).1
        - (hexTileMapCS.calculateIsometricPosition 0 (-2)).1
        = 0) := by
  refine ⟨(offsetParity_amended hexTileMapCS 0 2).1,
    (offsetParity_amended hexTileMapCS 0 2).2.1 (by norm_num) (by decide),
    (offsetParity_amended hexTileMapCS 0 1).2.2.1 (by norm_num) (by decide),
    ?_⟩
  have h := (offsetParity_amended hexTileMapCS 0 (-2)).2.2.2 (by norm_num)
  norm_num at h
  exact h

/-! ## Tile types and static tables (src TileTypes) -/

/-- `enum TerrainTileType`. -/
inductive TerrainTileType where
  | GRASS | FOREST | MOUNTAIN | DESERT | WATER
  deriving DecidableEq, Repr

/-- `enum FeatureTileType`. -/
inductive FeatureTileType where
  | FRUIT | ANIMALS | MINERALS | RUINS | VILLAGE
  deriving DecidableEq, Repr

/-- `TERRAIN_WEIGHTS`. -/
def TERRAIN_WEIGHTS : TerrainTileType → ℚ
  | .GRASS => 35
  | .FOREST => 25
  | .MOUNTAIN => 15
  | .DESERT => 15
  | .WATER => 10

/-- Declaration (and hence `Object.entries`) order of `TERRAIN_WEIGHTS`. -/
def terrainOrder : List TerrainTileType :=
  [.GRASS, .FOREST, .MOUNTAIN, .DESERT, .WATER]

/-- `FEATURE_WEIGHTS`. -/
def FEATURE_WEIGHTS : FeatureTileType → ℚ
  | .FRUIT => 25
  | .ANIMALS => 25
  | .MINERALS => 20
  | .RUINS => 15
  | .VILLAGE => 15

/-- Declaration (and hence `Object.entries`) order of the feature tables. -/
def featureOrder : List FeatureTileType :=
  [.FRUIT, .ANIMALS, .MINERALS, .RUINS, .VILLAGE]

/-- `VALID_FEATURE_TERRAIN_COMBINATIONS`. -/
def VALID_FEATURE_TERRAIN_COMBINATIONS : FeatureTileType → List TerrainTileType
  | .FRUIT => [.GRASS, .FOREST]
  | .ANIMALS => [.GRASS, .FOREST, .DESERT]
  | .MINERALS => [.MOUNTAIN, .DESERT]
  | .RUINS => [.GRASS, .DESERT, .FOREST]
  | .VILLAGE => [.GRASS, .DESERT]

/-- `interface FeatureTile` (coordinates are the generator's loop indices,
hence naturals). -/
structure FeatureTile where
  x : ℕ
  y : ℕ
  type : FeatureTileType
  deriving DecidableEq, Repr

/-- `interface TileMap`. -/
structure TileMap where
  terrain : List (List TerrainTileType)
  features : List FeatureTile
  deriving DecidableEq, Repr

/-! ## Random source

`Math.random()` is modelled as a stream of rationals with a cursor; each
call reads the value at the cursor and advances it.  A stream is *uniform*
when every value lies in `[0, 1)`, the contract of `Math.random`. -/

structure Rng where
  seq : ℕ → ℚ
  idx : ℕ

def Rng.next (rng : Rng) : ℚ × Rng :=
  (rng.seq rng.idx, ⟨rng.seq, rng.idx + 1⟩)

def Rng.Uniform (rng : Rng) : Prop :=
  ∀ n, 0 ≤ rng.seq n ∧ rng.seq n < 1

/-! ## MapGenerator.selectTerrainTypeFromValue -/

/-- `Object.values(TERRAIN_WEIGHTS).reduce((sum, w) => sum + w, 0)`. -/
def totalTerrainWeight : ℚ := (terrainOrder.map TERRAIN_WEIGHTS).sum

/-- The threshold-building loop of `selectTerrainTypeFromValue`: for each
terrain type in declaration order, `min = runningTotal / totalWeight`,
then `runningTotal += weight`, then `max = runningTotal / totalWeight`. -/
def buildThresholds (runningTotal : ℚ) :
    List TerrainTileType → List (TerrainTileType × ℚ × ℚ)
  | [] => []
  | t :: rest =>
    let mn := runningTotal / totalTerrainWeight
    let rt := runningTotal + TERRAIN_WEIGHTS t
    let mx := rt / totalTerrainWeight
    (t, mn, mx) :: buildThresholds rt rest

/-- The threshold-search loop: return the first threshold with
`value >= min && value < max`. -/
def findThreshold (value : ℚ) :
    List (TerrainTileType × ℚ × ℚ) → Option TerrainTileType
  | [] => none
  | (t, mn, mx) :: rest =>
    if mn ≤ value ∧ value < mx then some t else findThreshold value rest

/-- `selectTerrainTypeFromValue(value)`: search the thresholds (the loop's
early `return threshold.type`), falling back to the trailing
`return TerrainTileType.GRASS` default when no range matches. -/
def selectTerrainTypeFromValue (value : ℚ) : TerrainTileType :=
  (findThreshold value (buildThresholds 0 terrainOrder)).getD
    TerrainTileType.GRASS

/-- C5 counterexample: the boundary value `0.35` (between the Grass and
Forest sub-intervals) maps to Forest, the higher-indexed interval, not the
lower-indexed one; and the defensive input of exactly `1.0` falls through
every `value < max` test and hits the trailing default, yielding Grass,
not Water. -/
theorem selectTerrainTypeFromValue_counterexample :
    (selectTerrainTypeFromValue (35/100) = TerrainTileType.FOREST ∧
      TerrainTileType.FOREST ≠ TerrainTileType.GRASS) ∧
    (selectTerrainTypeFromValue 1 = TerrainTileType.GRASS ∧
      TerrainTileType.GRASS ≠ TerrainTileType.WATER) := by
  refine ⟨⟨?_, by decide⟩, ⟨?_, by decide⟩⟩ <;>
    norm_num [selectTerrainTypeFromValue, findThreshold, buildThresholds,
      terrainOrder, TERRAIN_WEIGHTS, totalTerrainWeight]

/-- C5 amended: `selectTerrainTypeFromValue` partitions `[0,1)` into the
contiguous half-open intervals `[0,.35) ↦ Grass`, `[.35,.60) ↦ Forest`,
`[.60,.75) ↦ Mountain`, `[.75,.90) ↦ Desert`, `[.90,1) ↦ Water`
(proportional to `TERRAIN_WEIGHTS` in declaration order); a boundary value
maps to the **higher**-indexed interval (each interval is closed on the
left and open on the right), and the defensive input of exactly `1.0`
maps to Grass via the trailing default, not to the last interval. -/
theorem selectTerrainTypeFromValue_partition (v : ℚ) :
    (0 ≤ v → v < 35/100 →
      selectTerrainTypeFromValue v = TerrainTileType.GRASS)
    ∧ (35/100 ≤ v → v < 60/100 →
      selectTerrainTypeFromValue v = TerrainTileType.FOREST)
    ∧ (60/100 ≤ v → v < 75/100 →
      selectTerrainTypeFromValue v = TerrainTileType.MOUNTAIN)
    ∧ (75/100 ≤ v → v < 90/100 →
      selectTerrainTypeFromValue v = TerrainTileType.DESERT)
    ∧ (90/100 ≤ v → v < 1 →
      selectTerrainTypeFromValue v = TerrainTileType.WATER)
    ∧ selectTerrainTypeFromValue 1 = TerrainTileType.GRASS := by
  refine ⟨?_, ?_, ?_, ?_, ?_, ?_⟩
  · intro ha hb
    simp only [selectTerrainTypeFromValue, findThreshold, buildThresholds,
      terrainOrder, TERRAIN_WEIGHTS, totalTerrainWeight, List.map_cons,
      List.map_nil, List.sum_cons, List.sum_nil]
    norm_num
    rw [if_pos ⟨ha, by linarith⟩]
    rfl
  · intro ha hb
    simp only [selectTerrainTypeFromValue, findThreshold, buildThresholds,
      terrainOrder, TERRAIN_WEIGHTS, totalTerrainWeight, List.map_cons,
      List.map_nil, List.sum_cons, List.sum_nil]
    norm_num
    rw [if_neg (by rintro ⟨-, h⟩; linarith), if_pos ⟨by linarith, by linarith⟩]
    rfl
  · intro ha hb
    simp only [selectTerrainTypeFromValue, findThreshold, buildThresholds,
      terrainOrder, TERRAIN_WEIGHTS, totalTerrainWeight, List.map_cons,
      List.map_nil, List.sum_cons, List.sum_nil]
    norm_num
    rw [if_neg (by rintro ⟨-, h⟩; linarith),
      if_neg (by rintro ⟨-, h⟩; linarith),
      if_pos ⟨by linarith, by linarith⟩]
    rfl
  · intro ha hb
    simp only [selectTerrainTypeFromValue, findThreshold, buildThresholds,
      terrainOrder, TERRAIN_WEIGHTS, totalTerrainWeight, List.map_cons,
      List.map_nil, List.sum_cons, List.sum_nil]
    norm_num
    rw [if_neg (by rintro ⟨-, h⟩; linarith),
      if_neg (by rintro ⟨-, h⟩; linarith),
      if_neg (by rintro ⟨-, h⟩; linarith),
      if_pos ⟨by linarith, by linarith⟩]
    rfl
  · intro ha hb
    simp only [selectTerrainTypeFromValue, findThreshold, buildThresholds,
      terrainOrder, TERRAIN_WEIGHTS, totalTerrainWeight, List.map_cons,
      List.map_nil, List.sum_cons, List.sum_nil]
    norm_num
    rw [if_neg (by rintro ⟨-, h⟩; linarith),
      if_neg (by rintro ⟨-, h⟩; linarith),
      if_neg (by rintro ⟨-, h⟩; linarith),
      if_neg (by rintro ⟨-, h⟩; linarith),
      if_pos ⟨by linarith, by linarith⟩]
    rfl
  · norm_num [selectTerrainTypeFromValue, findThreshold, buildThresholds,
      terrainOrder, TERRAIN_WEIGHTS, totalTerrainWeight]

/-- Witness for C5 amended at `v = 0.95` (the Water interval). -/
theorem selectTerrainTypeFromValue_partition_witness :
    selectTerrainTypeFromValue (95/100) = TerrainTileType.WATER :=
  (selectTerrainTypeFromValue_partition (95/100)).2.2.2.2.1
    (by norm_num) (by norm_num)

/-! ## MapGenerator: terrain layer -/

/-- The `(dy, dx)` traversal order of the nested neighbor loops (`dy` outer
from -1 to 1, `dx` inner from -1 to 1, the center `(0,0)` skipped). -/
def neighborOffsets : List (ℤ × ℤ) :=
  [(-1, -1), (-1, 0), (-1, 1), (0, -1), (0, 1), (1, -1), (1, 0), (1, 1)]

/-- JS 2-D array read `m[y][x]` on a rational grid (only ever used at
in-bounds indices; the default is irrelevant there). -/
def gridGetQ (m : List (List ℚ)) (y x : ℕ) : ℚ :=
  (m.getD y []).getD x 0

/-- JS 2-D array read `m[y][x]` on a terrain grid (only ever used at
in-bounds indices; the default is irrelevant there). -/
def terrainGet (m : List (List TerrainTileType)) (y x : ℕ) : TerrainTileType :=
  (m.getD y []).getD x TerrainTileType.GRASS

/-- The inner seed loop: `row.push(Math.random())` `w` times. -/
def genRowVals : ℕ → Rng → List ℚ × Rng
  | 0, rng => ([], rng)
  | n + 1, rng =>
    let p := rng.next
    let q := genRowVals n p.2
    (p.1 :: q.1, q.2)

/-- The outer seed loop: push `h` rows of `w` random values each. -/
def genSeedRows (w : ℕ) : ℕ → Rng → List (List ℚ) × Rng
  | 0, rng => ([], rng)
  | n + 1, rng =>
    let p := genRowVals w rng
    let q := genSeedRows w n p.2
    (p.1 :: q.1, q.2)

/-- The smoothing step for one cell: the cell's own seed value plus every
in-bounds neighbor's seed value, divided by the number of contributing
cells (`total / count`). -/
def smoothedValue (seedMap : List (List ℚ)) (w h x y : ℕ) : ℚ :=
  let contribs := neighborOffsets.filterMap fun d =>
    let ny := (y : ℤ) + d.1
    let nx := (x : ℤ) + d.2
    if nx < 0 ∨ ny < 0 ∨ (w : ℤ) ≤ nx ∨ (h : ℤ) ≤ ny then none
    else some (gridGetQ seedMap ny.toNat nx.toNat)
  (gridGetQ seedMap y x + contribs.sum) / (1 + contribs.length)

/-- The classification pass of `generateTerrainLayer`: smooth every cell
and map it through `selectTerrainTypeFromValue`. -/
def genTerrainGrid (seedMap : List (List ℚ)) (w h : ℕ) :
    List (List TerrainTileType) :=
  (List.range h).map fun y => (List.range w).map fun x =>
    selectTerrainTypeFromValue (smoothedValue seedMap w h x y)

/-- The water-neighbor count of `refineWaterBodies` for one cell, read
from the pre-refinement grid `m`. -/
def countWaterNeighbors (m : List (List TerrainTileType)) (w h x y : ℕ) :
    ℕ :=
  (neighborOffsets.filter fun d =>
    let ny := (y : ℤ) + d.1
    let nx := (x : ℤ) + d.2
    if nx < 0 ∨ ny < 0 ∨ (w : ℤ) ≤ nx ∨ (h : ℤ) ≤ ny then false
    else terrainGet m ny.toNat nx.toNat == TerrainTileType.WATER).length

/-- One cell's refinement decision, computed from the pre-refinement grid
`m` alone: with 2 or more water neighbors, become water with probability
0.7; an isolated water cell is reclassified from a fresh random draw;
otherwise the cell keeps its value (the `tempMap` copy).  The two source
`if`s are mutually exclusive (`wn ≥ 2` vs `wn === 0`), and `Math.random()`
is called only when the corresponding guard fires (JS `&&`
short-circuits). -/
def refineCell (m : List (List TerrainTileType)) (w h x y : ℕ) (rng : Rng) :
    TerrainTileType × Rng :=
  let wn := countWaterNeighbors m w h x y
  let cur := terrainGet m y x
  if 2 ≤ wn then
    let p := rng.next
    (if p.1 < 7/10 then TerrainTileType.WATER else cur, p.2)
  else if cur = TerrainTileType.WATER ∧ wn = 0 then
    let p := rng.next
    (selectTerrainTypeFromValue p.1, p.2)
  else (cur, rng)

/-- Threads the random stream through a per-element computation, keeping
the results in order (the shape of every JS `for` loop here). -/
def threadMap {α β : Type} (f : α → Rng → β × Rng) :
    List α → Rng → List β × Rng
  | [], rng => ([], rng)
  | a :: as, rng =>
    let p := f a rng
    let q := threadMap f as p.2
    (p.1 :: q.1, q.2)

/-- `refineWaterBodies(terrainMap)`: reads `terrainMap[0].length` (a crash,
modelled `none`, when the grid has no rows), then computes every cell's
decision from the pre-refinement grid and applies all of them together
(the source's `tempMap` deep copy followed by the copy-back loop). -/
def refineWaterBodies (m : List (List TerrainTileType)) (rng : Rng) :
    Option (List (List TerrainTileType) × Rng) :=
  match m.head? with
  | none => none
  | some row0 =>
    let h := m.length
    let w := row0.length
    some (threadMap (fun y rng =>
      threadMap (fun x rng => refineCell m w h x y rng) (List.range w) rng)
      (List.range h) rng)

/-- `generateTerrainLayer(width, height)`: seed noise, smoothing and
classification, then water refinement.  A JS `for (let i = 0; i < n; ...)`
loop with an integer bound `n ≤ 0` runs zero times, hence `Int.toNat`. -/
def generateTerrainLayer (width height : ℤ) (rng : Rng) :
    Option (List (List TerrainTileType) × Rng) :=
  let w := width.toNat
  let h := height.toNat
  let p := genSeedRows w h rng
  let terrainMap := genTerrainGrid p.1 w h
  refineWaterBodies terrainMap p.2

/-! ## MapGenerator: features -/

/-- `getValidFeatureTypesForTerrain(terrainType)`: walk the combination
table in declaration order, keeping the feature types whose terrain list
`includes` the given terrain. -/
def getValidFeatureTypesForTerrain (terrainType : TerrainTileType) :
    List FeatureTileType :=
  featureOrder.filter fun featureType =>
    (VALID_FEATURE_TERRAIN_COMBINATIONS featureType).contains terrainType

/-- The total-weight accumulation over the valid feature types. -/
def totalFeatureWeight (validTypes : List FeatureTileType) : ℚ :=
  (validTypes.map FEATURE_WEIGHTS).sum

/-- The cumulative-weight walk of `selectFeatureTypeWithWeights`: return
the first type whose running total reaches the drawn value (the early
`return type`), `none` when the loop falls through. -/
def selectFeatureLoop (randomValue : ℚ) (runningTotal : ℚ) :
    List FeatureTileType → Option FeatureTileType
  | [] => none
  | t :: rest =>
    let rt := runningTotal + FEATURE_WEIGHTS t
    if randomValue ≤ rt then some t else selectFeatureLoop randomValue rt rest

/-- `selectFeatureTypeWithWeights(validTypes)`: draw
`randomValue = Math.random() * totalWeight`, walk the cumulative weights,
and fall back to `validTypes[0]` (`none` on an empty list, where the JS
read would yield `undefined`). -/
def selectFeatureTypeWithWeights (validTypes : List FeatureTileType)
    (rng : Rng) : Option FeatureTileType × Rng :=
  let totalWeight := totalFeatureWeight validTypes
  let p := rng.next
  let randomValue := p.1 * totalWeight
  match selectFeatureLoop randomValue 0 validTypes with
  | some t => (some t, p.2)
  | none => (validTypes.head?, p.2)

/-- The mutable loop state of `generateFeatures`: the `features` array and
the `occupiedTiles` set (modelled as the list of inserted keys). -/
structure FeatureGenState where
  features : List FeatureTile
  occupied : List (ℕ × ℕ)

/-- One iteration of the feature loop at cell `c = (x, y)`: skip when the
key is already occupied, otherwise draw the placement probability, and on
success select a weighted feature type, record the placement, and mark the
tile occupied. -/
def featureCellStep (terrain : List (List TerrainTileType))
    (p : FeatureGenState × Rng) (c : ℕ × ℕ) : FeatureGenState × Rng :=
  let st := p.1
  let rng := p.2
  if c ∈ st.occupied then (st, rng)
  else
    let p := rng.next
    if p.1 < 2/10 then
      let terrainType := terrainGet terrain c.2 c.1
      let validFeatureTypes := getValidFeatureTypesForTerrain terrainType
      if 0 < validFeatureTypes.length then
        let q := selectFeatureTypeWithWeights validFeatureTypes p.2
        match q.1 with
        | some featureType =>
          (⟨st.features ++ [⟨c.1, c.2, featureType⟩],
            st.occupied ++ [c]⟩, q.2)
        | none => (st, q.2)
      else (st, p.2)
    else (st, p.2)

/-- The row-major visiting order of the nested feature loops. -/
def rowMajorCells (w h : ℕ) : List (ℕ × ℕ) :=
  (List.range h).flatMap fun y => (List.range w).map fun x => (x, y)

/-- `generateFeatures(terrainMap)`: reads `terrainMap[0].length` (a crash,
modelled `none`, on an empty grid), then folds the feature-placement step
over the cells in row-major order. -/
def generateFeatures (terrain : List (List TerrainTileType)) (rng : Rng) :
    Option (List FeatureTile × Rng) :=
  match terrain.head? with
  | none => none
  | some row0 =>
    let h := terrain.length
    let w := row0.length
    let res := (rowMajorCells w h).foldl (featureCellStep terrain)
      (⟨[], []⟩, rng)
    some (res.1.features, res.2)

/-- `generateTileMap(width, height)`: terrain layer then features. -/
def generateTileMap (width height : ℤ) (rng : Rng) :
    Option (TileMap × Rng) :=
  match generateTerrainLayer width height rng with
  | none => none
  | some p =>
    match generateFeatures p.1 p.2 with
    | none => none
    | some q => some (⟨p.1, q.1⟩, q.2)

/-! ## Shape lemmas for the terrain phase -/

theorem threadMap_fst_length {α β : Type} (f : α → Rng → β × Rng)
    (l : List α) (rng : Rng) :
    ((threadMap f l rng).1).length = l.length := by
  induction l generalizing rng with
  | nil => rfl
  | cons a as ih => simp [threadMap, ih]

theorem threadMap_snd {α β : Type} (f : α → Rng → β × Rng)
    (l : List α) (rng : Rng) :
    (threadMap f l rng).2 = l.foldl (fun r a => (f a r).2) rng := by
  induction l generalizing rng with
  | nil => rfl
  | cons a as ih => simp [threadMap, ih]

theorem threadMap_fst_getD {α β : Type} (f : α → Rng → β × Rng)
    (l : List α) (rng : Rng) (i : ℕ) (hi : i < l.length) (d : β) (da : α) :
    ((threadMap f l rng).1).getD i d =
      (f (l.getD i da) ((l.take i).foldl (fun r a => (f a r).2) rng)).1 := by
  induction l generalizing rng i with
  | nil => simp at hi
  | cons a as ih =>
    cases i with
    | zero => simp [threadMap]
    | succ i =>
      simp only [threadMap, List.getD_cons_succ, List.take_succ_cons,
        List.foldl_cons]
      exact ih (f a rng).2 i (by simpa using hi)

theorem threadMap_fst_mem {α β : Type} (f : α → Rng → β × Rng)
    (l : List α) (rng : Rng) {b : β} (hb : b ∈ (threadMap f l rng).1) :
    ∃ a rng2, a ∈ l ∧ b = (f a rng2).1 := by
  induction l generalizing rng with
  | nil => simp [threadMap] at hb
  | cons a as ih =>
    simp only [threadMap, List.mem_cons] at hb
    rcases hb with hb | hb
    · exact ⟨a, rng, List.mem_cons_self a as, hb⟩
    · rcases ih (f a rng).2 hb with ⟨a2, rng2, ha2, hb2⟩
      exact ⟨a2, rng2, List.mem_cons_of_mem a ha2, hb2⟩

theorem genTerrainGrid_length (seedMap : List (List ℚ)) (w h : ℕ) :
    (genTerrainGrid seedMap w h).length = h := by
  simp [genTerrainGrid]

theorem genTerrainGrid_row_length (seedMap : List (List ℚ)) (w h : ℕ)
    {row : List TerrainTileType} (hrow : row ∈ genTerrainGrid seedMap w h) :
    row.length = w := by
  simp only [genTerrainGrid, List.mem_map] at hrow
  rcases hrow with ⟨y, -, rfl⟩
  simp

theorem refineWaterBodies_shape (m : List (List TerrainTileType))
    (rng : Rng) {g : List (List TerrainTileType)} {rng2 : Rng}
    (hsome : refineWaterBodies m rng = some (g, rng2)) :
    g.length = m.length ∧
      ∀ row ∈ g, row.length = (m.headD []).length := by
  rcases hm : m.head? with - | row0
  · rw [refineWaterBodies, hm] at hsome
    exact absurd hsome (by simp)
  · rw [refineWaterBodies, hm] at hsome
    simp only [Option.some_inj] at hsome
    have hg : g = (threadMap (fun y rng =>
        threadMap (fun x rng => refineCell m row0.length m.length x y rng)
          (List.range row0.length) rng) (List.range m.length) rng).1 := by
      rw [hsome]
    have hd : m.headD [] = row0 := by
      rw [List.headD_eq_head?_getD, hm]
      rfl
    constructor
    · rw [hg, threadMap_fst_length, List.length_range]
    · intro row hrow
      rw [hg] at hrow
      rcases threadMap_fst_mem _ _ _ hrow with ⟨y, rngy, -, rfl⟩
      rw [threadMap_fst_length, List.length_range, hd]

theorem refineWaterBodies_isSome (m : List (List TerrainTileType))
    (rng : Rng) (hm : m ≠ []) :
    ∃ g rng2, refineWaterBodies m rng = some (g, rng2) := by
  rcases hq : m.head? with - | row0
  · exact absurd (List.head?_eq_none_iff.mp hq) hm
  · rw [refineWaterBodies, hq]
    exact ⟨_, _, rfl⟩

theorem generateFeatures_isSome (terrain : List (List TerrainTileType))
    (rng : Rng) (ht : terrain ≠ []) :
    ∃ fs rng2, generateFeatures terrain rng = some (fs, rng2) := by
  rcases hq : terrain.head? with - | row0
  · exact absurd (List.head?_eq_none_iff.mp hq) ht
  · rw [generateFeatures, hq]
    exact ⟨_, _, rfl⟩

theorem genTerrainGrid_headD_length (seedMap : List (List ℚ)) (w h : ℕ)
    (hh : 0 < h) : ((genTerrainGrid seedMap w h).headD []).length = w := by
  rcases h with - | n
  · exact absurd hh (by norm_num)
  · simp [genTerrainGrid, List.range_succ_eq_map]

/-- C3 (Dimension invariant): for every `width > 0`, `height > 0` and
every random stream, `generateTileMap` succeeds and its terrain layer has
exactly `height` rows of exactly `width` entries each. -/
theorem generateTileMap_dimensions (width height : ℤ) (rng : Rng)
    (hw : 0 < width) (hh : 0 < height) :
    ∃ tm rng2, generateTileMap width height rng = some (tm, rng2) ∧
      (tm.terrain.length : ℤ) = height ∧
      ∀ row ∈ tm.terrain, (row.length : ℤ) = width := by
  have hw0 : 0 < width.toNat := by omega
  have hh0 : 0 < height.toNat := by omega
  simp only [generateTileMap, generateTerrainLayer]
  set seed := genSeedRows width.toNat height.toNat rng with hseed
  set terrainMap := genTerrainGrid seed.1 width.toNat height.toNat
    with hterrain
  have hTne : terrainMap ≠ [] := by
    intro hnil
    have := genTerrainGrid_length seed.1 width.toNat height.toNat
    rw [← hterrain, hnil] at this
    simp at this
    omega
  rcases refineWaterBodies_isSome terrainMap seed.2 hTne with ⟨g, rng2, hg⟩
  rcases refineWaterBodies_shape terrainMap seed.2 hg with ⟨hlen, hrows⟩
  have hgne : g ≠ [] := by
    intro hnil
    rw [hnil, hterrain] at hlen
    rw [genTerrainGrid_length] at hlen
    simp at hlen
    omega
  rcases generateFeatures_isSome g rng2 hgne with ⟨fs, rng3, hf⟩
  rw [hg]
  dsimp only
  rw [hf]
  refine ⟨⟨g, fs⟩, rng3, rfl, ?_, ?_⟩
  · rw [hlen, hterrain, genTerrainGrid_length]
    omega
  · intro row hrow
    rw [hrows row hrow, hterrain,
      genTerrainGrid_headD_length seed.1 width.toNat height.toNat hh0]
    omega

/-- Witness for C3 at `width = height = 1` with the constant stream
`1/10`: the produced terrain has one row, and every row passes the
length-1 check. -/
theorem generateTileMap_dimensions_witness :
    ((generateTileMap 1 1 ⟨fun _ => 1/10, 0⟩).map
      (fun p => ((p.1.terrain.length : ℤ),
        p.1.terrain.all (fun row => (row.length : ℤ) == 1)))).getD
      (0, false) = (1, true) := by
  obtain ⟨tm, rng2, hsome, hlen, hrows⟩ :=
    generateTileMap_dimensions 1 1 ⟨fun _ => 1/10, 0⟩ (by norm_num)
      (by norm_num)
  rw [hsome]
  simp only [Option.map_some', Option.getD_some, Prod.mk.injEq]
  refine ⟨hlen, ?_⟩
  rw [List.all_eq_true]
  intro row hrow
  rw [beq_iff_eq]
  exact hrows row hrow

/-! ## C4: behaviour on non-positive dimensions -/

theorem genSeedRows_width_zero (n : ℕ) (rng : Rng) :
    genSeedRows 0 n rng = (List.replicate n [], rng) := by
  induction n with
  | zero => rfl
  | succ n ih => simp [genSeedRows, genRowVals, ih, List.replicate_succ]

theorem genTerrainGrid_width_zero (seedMap : List (List ℚ)) (h : ℕ) :
    genTerrainGrid seedMap 0 h = List.replicate h [] := by
  simp only [genTerrainGrid, List.range_zero, List.map_nil]
  induction h with
  | zero => rfl
  | succ n ih => rw [List.range_succ, List.map_append, ih,
      List.replicate_succ, List.map_singleton,
      ← List.replicate_succ, List.replicate_succ']

theorem threadMap_pure {α β : Type} (g : α → β) (l : List α) (rng : Rng)
    (f : α → Rng → β × Rng) (hf : ∀ a rng, f a rng = (g a, rng)) :
    threadMap f l rng = (l.map g, rng) := by
  induction l generalizing rng with
  | nil => rfl
  | cons a as ih => simp [threadMap, hf, ih]

theorem rowMajorCells_width_zero (h : ℕ) : rowMajorCells 0 h = [] := by
  simp only [rowMajorCells, List.range_zero, List.map_nil]
  induction h with
  | zero => rfl
  | succ n ih => simp [List.range_succ, ih]

theorem refineWaterBodies_empty_rows (h : ℕ) (hh : 0 < h) (rng : Rng) :
    refineWaterBodies (List.replicate h ([] : List TerrainTileType)) rng =
      some (List.replicate h [], rng) := by
  obtain ⟨n, rfl⟩ : ∃ n, h = n + 1 := ⟨h - 1, by omega⟩
  rw [List.replicate_succ, refineWaterBodies]
  simp only [List.head?_cons, List.length_nil, List.length_cons,
    List.length_replicate, List.range_zero]
  have hpure : threadMap (fun y rng =>
      threadMap (fun x rng =>
        refineCell ([] :: List.replicate n []) 0 (n + 1) x y rng) [] rng)
      (List.range (n + 1)) rng =
      ((List.range (n + 1)).map (fun _ => ([] : List TerrainTileType)),
        rng) :=
    threadMap_pure _ _ _ _ (fun a rng => rfl)
  rw [hpure]
  simp [List.map_const', ← List.replicate_succ, List.replicate_succ]

theorem generateFeatures_empty_rows (h : ℕ) (hh : 0 < h) (rng : Rng) :
    generateFeatures (List.replicate h ([] : List TerrainTileType)) rng =
      some ([], rng) := by
  obtain ⟨n, rfl⟩ : ∃ n, h = n + 1 := ⟨h - 1, by omega⟩
  rw [List.replicate_succ, generateFeatures]
  simp only [List.head?_cons, List.length_nil, List.length_cons,
    List.length_replicate]
  rw [rowMajorCells_width_zero]
  rfl

/-- C4 counterexample: `generateTileMap(-1, 2)` does not fail with any
error value: it returns a degenerate map of two empty terrain rows and no
features (the random stream is never consulted), so no `InvalidDimension`
failure occurs for this non-positive width. -/
theorem generateTileMap_invalidDimension_counterexample :
    generateTileMap (-1) 2 ⟨fun _ => 1/10, 0⟩ =
      some (⟨[[], []], []⟩, ⟨fun _ => 1/10, 0⟩) := rfl

/-- C4 amended: the code performs no dimension validation and has no
`InvalidDimension` error value.  For `height ≤ 0` every call crashes with
an uncontrolled `TypeError` (reading `terrainMap[0].length` of an empty
array inside `refineWaterBodies`, modelled as `none`); for `height > 0`
and `width ≤ 0` it returns — rather than fails — a degenerate `TileMap`
of `height` empty terrain rows and an empty feature list. -/
theorem generateTileMap_no_dimension_validation (width height : ℤ)
    (rng : Rng) :
    (height ≤ 0 → generateTileMap width height rng = none)
    ∧ (0 < height → width ≤ 0 →
        generateTileMap width height rng =
          some (⟨List.replicate height.toNat [], []⟩, rng)) := by
  constructor
  · intro h
    have h0 : height.toNat = 0 := by omega
    simp [generateTileMap, generateTerrainLayer, h0, genSeedRows,
      genTerrainGrid, refineWaterBodies]
  · intro hpos hw
    have hw0 : width.toNat = 0 := by omega
    have hh0 : 0 < height.toNat := by omega
    simp only [generateTileMap, generateTerrainLayer, hw0]
    rw [genSeedRows_width_zero]
    dsimp only
    rw [genTerrainGrid_width_zero, refineWaterBodies_empty_rows _ hh0]
    dsimp only
    rw [generateFeatures_empty_rows _ hh0]

/-- Witness for C4 amended at `(width, height) = (3, -2)` and `(-1, 2)`. -/
theorem generateTileMap_no_dimension_validation_witness :
    generateTileMap 3 (-2) ⟨fun _ => 1/10, 0⟩ = none
    ∧ generateTileMap (-1) 2 ⟨fun _ => 1/2, 0⟩ =
        some (⟨List.replicate ((2 : ℤ)).toNat [], []⟩, ⟨fun _ => 1/2, 0⟩) :=
  ⟨(generateTileMap_no_dimension_validation 3 (-2) ⟨fun _ => 1/10, 0⟩).1
      (by norm_num),
   (generateTileMap_no_dimension_validation (-1) 2 ⟨fun _ => 1/2, 0⟩).2
      (by norm_num) (by norm_num)⟩

/-! ## C9: the cumulative-weight walk always returns in the loop -/

theorem selectFeatureLoop_reaches (l : List FeatureTileType) (rv : ℚ) :
    ∀ rt : ℚ, l ≠ [] → rv ≤ rt + totalFeatureWeight l →
    ∃ t ∈ l, selectFeatureLoop rv rt l = some t := by
  induction l with
  | nil => exact fun rt hne _ => absurd rfl hne
  | cons a as ih =>
    intro rt hne hub
    by_cases hle : rv ≤ rt + FEATURE_WEIGHTS a
    · exact ⟨a, List.mem_cons_self a as, by simp [selectFeatureLoop, hle]⟩
    · have htot : totalFeatureWeight (a :: as) =
          FEATURE_WEIGHTS a + totalFeatureWeight as := by
        simp [totalFeatureWeight]
      have hne2 : as ≠ [] := by
        rintro rfl
        rw [htot] at hub
        simp [totalFeatureWeight] at hub
        exact hle (by linarith)
      rcases ih (rt + FEATURE_WEIGHTS a) hne2 (by rw [htot] at hub; linarith)
        with ⟨t, ht, heq⟩
      exact ⟨t, List.mem_cons_of_mem a ht, by simp [selectFeatureLoop, hle, heq]⟩

/-- C9: for every non-empty list of feature kinds with positive
`FEATURE_WEIGHTS` and every draw `randomValue` in `[0, totalWeight)`, the
cumulative-weight walk of `selectFeatureTypeWithWeights` returns inside
the loop (`selectFeatureLoop` yields `some`), on a member of the input
list — so the trailing `return validTypes[0]` default is unreachable. -/
theorem selectFeatureLoop_no_fallback (validTypes : List FeatureTileType)
    (hne : validTypes ≠ [])
    (_hpos : ∀ t ∈ validTypes, 0 < FEATURE_WEIGHTS t)
    (rv : ℚ) (_h0 : 0 ≤ rv) (hlt : rv < totalFeatureWeight validTypes) :
    ∃ t ∈ validTypes, selectFeatureLoop rv 0 validTypes = some t :=
  selectFeatureLoop_reaches validTypes rv 0 hne (by linarith)

/-- Witness for C9 with `validTypes = [FRUIT]` and `randomValue = 1/2`:
the loop returns `FRUIT`, a member of the input list. -/
theorem selectFeatureLoop_no_fallback_witness :
    selectFeatureLoop (1/2) 0 [FeatureTileType.FRUIT] =
      some FeatureTileType.FRUIT := by
  obtain ⟨t, ht, heq⟩ :=
    selectFeatureLoop_no_fallback [FeatureTileType.FRUIT] (by simp)
      (by
        intro t ht
        simp only [List.mem_singleton] at ht
        subst ht
        norm_num [FEATURE_WEIGHTS])
      (1/2) (by norm_num)
      (by norm_num [totalFeatureWeight, FEATURE_WEIGHTS])
  simp only [List.mem_singleton] at ht
  subst ht
  exact heq

/-! ## Membership facts for the feature draw -/

theorem selectFeatureLoop_mem {l : List FeatureTileType} {rv : ℚ}
    {t : FeatureTileType} :
    ∀ {rt : ℚ}, selectFeatureLoop rv rt l = some t → t ∈ l := by
  induction l with
  | nil => intro rt h; simp [selectFeatureLoop] at h
  | cons a as ih =>
    intro rt h
    simp only [selectFeatureLoop] at h
    split at h
    · exact (Option.some_inj.mp h) ▸ List.mem_cons_self a as
    · exact List.mem_cons_of_mem a (ih h)

theorem selectFeatureTypeWithWeights_mem {l : List FeatureTileType}
    {rng : Rng} {t : FeatureTileType}
    (h : (selectFeatureTypeWithWeights l rng).1 = some t) : t ∈ l := by
  simp only [selectFeatureTypeWithWeights] at h
  rcases hm : selectFeatureLoop (rng.next.1 * totalFeatureWeight l) 0 l
    with - | s
  · rw [hm] at h
    simp only at h
    exact List.mem_of_mem_head? h
  · rw [hm] at h
    simp only [Option.some_inj] at h
    exact h ▸ selectFeatureLoop_mem hm

/-! ## C2: feature/terrain compatibility -/

theorem mem_getValidFeatureTypesForTerrain {t : FeatureTileType}
    {ter : TerrainTileType} :
    t ∈ getValidFeatureTypesForTerrain ter ↔
      ter ∈ VALID_FEATURE_TERRAIN_COMBINATIONS t := by
  cases t <;> cases ter <;> decide

theorem featureCellStep_features_pred (terrain : List (List TerrainTileType))
    (P : FeatureTile → Prop)
    (hP : ∀ (c : ℕ × ℕ) (t : FeatureTileType),
      t ∈ getValidFeatureTypesForTerrain (terrainGet terrain c.2 c.1) →
      P ⟨c.1, c.2, t⟩)
    (st : FeatureGenState) (rng : Rng) (c : ℕ × ℕ)
    (hst : ∀ f ∈ st.features, P f) :
    ∀ f ∈ (featureCellStep terrain (st, rng) c).1.features, P f := by
  simp only [featureCellStep]
  split
  · exact hst
  · split
    · split
      · split
        · rename_i featureType heq
          intro f hf
          rcases List.mem_append.mp hf with hf | hf
          · exact hst f hf
          · rw [List.mem_singleton.mp hf]
            exact hP c featureType (selectFeatureTypeWithWeights_mem heq)
        · exact hst
      · exact hst
    · exact hst

theorem featureFold_features_pred (terrain : List (List TerrainTileType))
    (P : FeatureTile → Prop)
    (hP : ∀ (c : ℕ × ℕ) (t : FeatureTileType),
      t ∈ getValidFeatureTypesForTerrain (terrainGet terrain c.2 c.1) →
      P ⟨c.1, c.2, t⟩) :
    ∀ (cells : List (ℕ × ℕ)) (st : FeatureGenState) (rng : Rng),
      (∀ f ∈ st.features, P f) →
      ∀ f ∈ (cells.foldl (featureCellStep terrain) (st, rng)).1.features,
        P f := by
  intro cells
  induction cells with
  | nil => exact fun st rng hst => hst
  | cons c cs ih =>
    intro st rng hst
    rw [List.foldl_cons]
    exact ih _ _ (featureCellStep_features_pred terrain P hP st rng c hst)

theorem generateFeatures_pred (terrain : List (List TerrainTileType))
    (rng : Rng) {fs : List FeatureTile} {rng2 : Rng}
    (hsome : generateFeatures terrain rng = some (fs, rng2))
    (P : FeatureTile → Prop)
    (hP : ∀ (c : ℕ × ℕ) (t : FeatureTileType),
      t ∈ getValidFeatureTypesForTerrain (terrainGet terrain c.2 c.1) →
      P ⟨c.1, c.2, t⟩) :
    ∀ f ∈ fs, P f := by
  rcases hq : terrain.head? with - | row0
  · rw [generateFeatures, hq] at hsome
    exact absurd hsome (by simp)
  · rw [generateFeatures, hq] at hsome
    simp only [Option.some_inj] at hsome
    injection hsome with hfs hrng
    rw [← hfs]
    exact featureFold_features_pred terrain P hP _ ⟨[], []⟩ rng
      (by intro f hf; simp at hf)

/-- C2 (Compatibility invariant): for every map returned by
`generateTileMap`, every feature sits on a terrain kind listed in
`VALID_FEATURE_TERRAIN_COMBINATIONS` for the feature's type — the
feature's kind is legal for the terrain cell it occupies, including
through the weighted-draw fallback branch. -/
theorem generateTileMap_feature_compatibility (width height : ℤ)
    (rng : Rng) {tm : TileMap} {rng2 : Rng}
    (hsome : generateTileMap width height rng = some (tm, rng2)) :
    ∀ f ∈ tm.features,
      terrainGet tm.terrain f.y f.x ∈
        VALID_FEATURE_TERRAIN_COMBINATIONS f.type := by
  rcases h1 : generateTerrainLayer width height rng with - | p
  · rw [generateTileMap, h1] at hsome
    exact absurd hsome (by simp)
  · rw [generateTileMap, h1] at hsome
    dsimp only at hsome
    rcases h2 : generateFeatures p.1 p.2 with - | q
    · rw [h2] at hsome
      exact absurd hsome (by simp)
    · rw [h2] at hsome
      simp only [Option.some_inj] at hsome
      injection hsome with htm hrng
      subst htm
      dsimp only
      intro f hf
      refine generateFeatures_pred p.1 p.2 (by rw [h2])
        (fun f => terrainGet p.1 f.y f.x ∈
          VALID_FEATURE_TERRAIN_COMBINATIONS f.type) ?_ f hf
      intro c t ht
      exact mem_getValidFeatureTypesForTerrain.mp ht

/-- Witness for C2: the 1×1 map generated from the constant stream `1/10`
places a Fruit feature at `(0, 0)` on Grass, and Grass is a legal terrain
for Fruit. -/
theorem generateTileMap_feature_compatibility_witness :
    terrainGet [[TerrainTileType.GRASS]] 0 0 ∈
      VALID_FEATURE_TERRAIN_COMBINATIONS FeatureTileType.FRUIT := by
  have hsome : generateTileMap 1 1 ⟨fun _ => 1/10, 0⟩ =
      some (⟨[[TerrainTileType.GRASS]], [⟨0, 0, FeatureTileType.FRUIT⟩]⟩,
        ⟨fun _ => 1/10, 3⟩) := by
    norm_num +decide [generateTileMap, generateTerrainLayer,
      genSeedRows, genRowVals, genTerrainGrid, smoothedValue,
      neighborOffsets, gridGetQ, Rng.next, selectTerrainTypeFromValue,
      findThreshold, buildThresholds, terrainOrder, TERRAIN_WEIGHTS,
      totalTerrainWeight, refineWaterBodies, threadMap, refineCell,
      countWaterNeighbors, terrainGet, List.range_succ, generateFeatures,
      rowMajorCells, featureCellStep, getValidFeatureTypesForTerrain,
      featureOrder, VALID_FEATURE_TERRAIN_COMBINATIONS,
      selectFeatureTypeWithWeights, totalFeatureWeight, FEATURE_WEIGHTS,
      selectFeatureLoop]
  exact generateTileMap_feature_compatibility 1 1 ⟨fun _ => 1/10, 0⟩ hsome
    ⟨0, 0, FeatureTileType.FRUIT⟩ (by simp)

/-! ## C6: in-bounds and pairwise-distinct feature placements -/

theorem mem_rowMajorCells {w h : ℕ} {c : ℕ × ℕ}
    (hc : c ∈ rowMajorCells w h) : c.1 < w ∧ c.2 < h := by
  simp only [rowMajorCells, List.mem_flatMap, List.mem_map,
    List.mem_range] at hc
  rcases hc with ⟨y, hy, x, hx, rfl⟩
  exact ⟨hx, hy⟩

theorem featureCellStep_wellformed (terrain : List (List TerrainTileType))
    (w h : ℕ) (st : FeatureGenState) (rng : Rng) (c : ℕ × ℕ)
    (hc : c.1 < w ∧ c.2 < h)
    (hst1 : ∀ f ∈ st.features,
      (f.x, f.y) ∈ st.occupied ∧ f.x < w ∧ f.y < h)
    (hst2 : st.features.Pairwise (fun f g => (f.x, f.y) ≠ (g.x, g.y))) :
    (∀ f ∈ (featureCellStep terrain (st, rng) c).1.features,
      (f.x, f.y) ∈ (featureCellStep terrain (st, rng) c).1.occupied ∧
        f.x < w ∧ f.y < h) ∧
    ((featureCellStep terrain (st, rng) c).1.features).Pairwise
      (fun f g => (f.x, f.y) ≠ (g.x, g.y)) := by
  simp only [featureCellStep]
  split
  · exact ⟨hst1, hst2⟩
  · rename_i hnotocc
    split
    · split
      · split
        · rename_i featureType heq
          constructor
          · intro f hf
            rcases List.mem_append.mp hf with hf | hf
            · rcases hst1 f hf with ⟨ho, hb⟩
              exact ⟨List.mem_append_left _ ho, hb⟩
            · rw [List.mem_singleton.mp hf]
              refine ⟨?_, hc.1, hc.2⟩
              exact List.mem_append_right _ (by simp)
          · rw [List.pairwise_append]
            refine ⟨hst2, List.pairwise_singleton _ _, ?_⟩
            intro f hf g hg
            rw [List.mem_singleton.mp hg]
            intro hcontra
            exact hnotocc (by
              have := (hst1 f hf).1
              rw [hcontra] at this
              simpa using this)
        · exact ⟨hst1, hst2⟩
      · exact ⟨hst1, hst2⟩
    · exact ⟨hst1, hst2⟩

theorem featureFold_wellformed (terrain : List (List TerrainTileType))
    (w h : ℕ) :
    ∀ (cells : List (ℕ × ℕ)), (∀ c ∈ cells, c.1 < w ∧ c.2 < h) →
    ∀ (st : FeatureGenState) (rng : Rng),
      (∀ f ∈ st.features,
        (f.x, f.y) ∈ st.occupied ∧ f.x < w ∧ f.y < h) →
      st.features.Pairwise (fun f g => (f.x, f.y) ≠ (g.x, g.y)) →
      (∀ f ∈ (cells.foldl (featureCellStep terrain) (st, rng)).1.features,
        f.x < w ∧ f.y < h) ∧
      ((cells.foldl (featureCellStep terrain)
        (st, rng)).1.features).Pairwise
        (fun f g => (f.x, f.y) ≠ (g.x, g.y)) := by
  intro cells
  induction cells with
  | nil =>
    intro _ st rng hst1 hst2
    exact ⟨fun f hf => (hst1 f hf).2, hst2⟩
  | cons c cs ih =>
    intro hcells st rng hst1 hst2
    rw [List.foldl_cons]
    rcases featureCellStep_wellformed terrain w h st rng c
      (hcells c (List.mem_cons_self c cs)) hst1 hst2 with ⟨h1, h2⟩
    exact ih (fun d hd => hcells d (List.mem_cons_of_mem c hd)) _ _ h1 h2

theorem generateTerrainLayer_shape (width height : ℤ) (rng : Rng)
    {p : List (List TerrainTileType) × Rng}
    (h : generateTerrainLayer width height rng = some p) :
    p.1.length = height.toNat ∧ ∀ row ∈ p.1, row.length = width.toNat := by
  simp only [generateTerrainLayer] at h
  have hpos : 0 < height.toNat := by
    by_contra h0
    have hzero : height.toNat = 0 := by omega
    have hlen := genTerrainGrid_length
      (genSeedRows width.toNat height.toNat rng).1 width.toNat height.toNat
    have hnil : genTerrainGrid
        (genSeedRows width.toNat height.toNat rng).1
        width.toNat height.toNat = [] :=
      List.length_eq_zero.mp (by rw [hlen, hzero])
    rw [hnil] at h
    simp [refineWaterBodies] at h
  rcases refineWaterBodies_shape _ _ h with ⟨hlen, hrows⟩
  constructor
  · rw [hlen, genTerrainGrid_length]
  · intro row hrow
    rw [hrows row hrow, genTerrainGrid_headD_length _ _ _ hpos]

/-- C6 (Feature placement well-formedness): in every map returned by
`generateTileMap(width, height)`, every feature's coordinates satisfy
`0 ≤ x < width` and `0 ≤ y < height`, and no two features share an
`(x, y)` pair. -/
theorem generateTileMap_feature_wellformed (width height : ℤ)
    (rng : Rng) {tm : TileMap} {rng2 : Rng}
    (hsome : generateTileMap width height rng = some (tm, rng2)) :
    (∀ f ∈ tm.features,
      (0 : ℤ) ≤ (f.x : ℤ) ∧ (f.x : ℤ) < width ∧
      (0 : ℤ) ≤ (f.y : ℤ) ∧ (f.y : ℤ) < height) ∧
    tm.features.Pairwise (fun f g => (f.x, f.y) ≠ (g.x, g.y)) := by
  rcases h1 : generateTerrainLayer width height rng with - | p
  · rw [generateTileMap, h1] at hsome
    exact absurd hsome (by simp)
  · rw [generateTileMap, h1] at hsome
    dsimp only at hsome
    rcases h2 : generateFeatures p.1 p.2 with - | q
    · rw [h2] at hsome
      exact absurd hsome (by simp)
    · rw [h2] at hsome
      simp only [Option.some_inj] at hsome
      injection hsome with htm hrng
      subst htm
      dsimp only
      rcases generateTerrainLayer_shape width height rng h1 with ⟨hlen, hrows⟩
      rcases hq : p.1.head? with - | row0
      · rw [generateFeatures, hq] at h2
        exact absurd h2 (by simp)
      · rw [generateFeatures, hq] at h2
        simp only [Option.some_inj] at h2
        obtain rfl := h2
        dsimp only
        have hrow0 : row0.length = width.toNat :=
          hrows row0 (List.mem_of_mem_head? hq)
        have hwf := featureFold_wellformed p.1 row0.length p.1.length
          (rowMajorCells row0.length p.1.length)
          (fun c hc => mem_rowMajorCells hc)
          ⟨[], []⟩ p.2 (by intro f hf; simp at hf) (by simp)
        refine ⟨?_, hwf.2⟩
        intro f hf
        rcases hwf.1 f hf with ⟨hx, hy⟩
        rw [hrow0] at hx
        rw [hlen] at hy
        refine ⟨by positivity, by omega, by positivity, by omega⟩

/-- Witness for C6 at the 1×1 map generated from the constant stream
`1/10`: its single feature at `(0, 0)` is in bounds, and the feature list
has pairwise-distinct coordinates. -/
theorem generateTileMap_feature_wellformed_witness :
    ((0 : ℤ) ≤ (((⟨0, 0, FeatureTileType.FRUIT⟩ : FeatureTile)).x : ℤ) ∧
      ((((⟨0, 0, FeatureTileType.FRUIT⟩ : FeatureTile)).x : ℤ)) < 1 ∧
      (0 : ℤ) ≤ (((⟨0, 0, FeatureTileType.FRUIT⟩ : FeatureTile)).y : ℤ) ∧
      ((((⟨0, 0, FeatureTileType.FRUIT⟩ : FeatureTile)).y : ℤ)) < 1) ∧
    ([(⟨0, 0, FeatureTileType.FRUIT⟩ : FeatureTile)]).Pairwise
      (fun f g => (f.x, f.y) ≠ (g.x, g.y)) := by
  have hsome : generateTileMap 1 1 ⟨fun _ => 1/10, 0⟩ =
      some (⟨[[TerrainTileType.GRASS]], [⟨0, 0, FeatureTileType.FRUIT⟩]⟩,
        ⟨fun _ => 1/10, 3⟩) := by
    norm_num +decide [generateTileMap, generateTerrainLayer,
      genSeedRows, genRowVals, genTerrainGrid, smoothedValue,
      neighborOffsets, gridGetQ, Rng.next, selectTerrainTypeFromValue,
      findThreshold, buildThresholds, terrainOrder, TERRAIN_WEIGHTS,
      totalTerrainWeight, refineWaterBodies, threadMap, refineCell,
      countWaterNeighbors, terrainGet, List.range_succ, generateFeatures,
      rowMajorCells, featureCellStep, getValidFeatureTypesForTerrain,
      featureOrder, VALID_FEATURE_TERRAIN_COMBINATIONS,
      selectFeatureTypeWithWeights, totalFeatureWeight, FEATURE_WEIGHTS,
      selectFeatureLoop]
  have h := generateTileMap_feature_wellformed 1 1 ⟨fun _ => 1/10, 0⟩ hsome
  exact ⟨h.1 ⟨0, 0, FeatureTileType.FRUIT⟩ (by simp), h.2⟩

/-! ## C10: the occupied-tiles check never fires -/

theorem featureCellStep_occupied_subset
    (terrain : List (List TerrainTileType)) (st : FeatureGenState)
    (rng : Rng) (d : ℕ × ℕ) {c : ℕ × ℕ}
    (hc : c ∈ (featureCellStep terrain (st, rng) d).1.occupied) :
    c ∈ st.occupied ∨ c = d := by
  simp only [featureCellStep] at hc
  split at hc
  · exact Or.inl hc
  · split at hc
    · split at hc
      · split at hc
        · rcases List.mem_append.mp hc with hc | hc
          · exact Or.inl hc
          · exact Or.inr (List.mem_singleton.mp hc)
        · exact Or.inl hc
      · exact Or.inl hc
    · exact Or.inl hc

theorem featureFold_occupied_subset
    (terrain : List (List TerrainTileType)) :
    ∀ (cells : List (ℕ × ℕ)) (st : FeatureGenState) (rng : Rng)
      {c : ℕ × ℕ},
      c ∈ (cells.foldl (featureCellStep terrain) (st, rng)).1.occupied →
      c ∈ st.occupied ∨ c ∈ cells := by
  intro cells
  induction cells with
  | nil =>
    intro st rng c hc
    exact Or.inl hc
  | cons d ds ih =>
    intro st rng c hc
    rw [List.foldl_cons] at hc
    rcases ih _ _ hc with hc2 | hc2
    · rcases featureCellStep_occupied_subset terrain st rng d hc2 with h | h
      · exact Or.inl h
      · exact Or.inr (h ▸ List.mem_cons_self d ds)
    · exact Or.inr (List.mem_cons_of_mem d hc2)

theorem rowMajorCells_nodup (w h : ℕ) : (rowMajorCells w h).Nodup := by
  induction h with
  | zero => simp [rowMajorCells]
  | succ n ih =>
    have hsplit : rowMajorCells w (n + 1) =
        rowMajorCells w n ++ (List.range w).map (fun x => (x, n)) := by
      rw [rowMajorCells, rowMajorCells, List.range_succ,
        List.flatMap_append, List.flatMap_cons, List.flatMap_nil,
        List.append_nil]
    rw [hsplit]
    refine List.Nodup.append ih
      ((List.nodup_range w).map (fun a b hab => by simpa using hab)) ?_
    intro a ha hb
    have h1 := (mem_rowMajorCells ha).2
    simp only [List.mem_map, List.mem_range] at hb
    rcases hb with ⟨x, -, hx⟩
    rw [← hx] at h1
    simp at h1

/-- C10 (Vacuous occupancy check): the row-major cell list of
`generateFeatures` visits each cell exactly once (it is duplicate-free),
and when the loop reaches its `k`-th cell, that cell is never already in
`occupiedTiles` — the `occupiedTiles.has(tileKey)` skip branch is
unreachable, so at most one feature per cell follows from single
visitation alone. -/
theorem occupiedCheck_unreachable (terrain : List (List TerrainTileType))
    (rng : Rng) (w h k : ℕ) (hk : k < (rowMajorCells w h).length) :
    (rowMajorCells w h).Nodup ∧
    (rowMajorCells w h).getD k (0, 0) ∉
      (((rowMajorCells w h).take k).foldl (featureCellStep terrain)
        (⟨[], []⟩, rng)).1.occupied := by
  refine ⟨rowMajorCells_nodup w h, ?_⟩
  intro hmem
  rcases featureFold_occupied_subset terrain
    ((rowMajorCells w h).take k) ⟨[], []⟩ rng hmem with h0 | h0
  · simp at h0
  · rw [List.getD_eq_getElem _ _ hk] at h0
    rcases List.getElem_of_mem h0 with ⟨i, hi, heq⟩
    have hik : i < k := by
      have := hi
      simp only [List.length_take] at this
      omega
    rw [List.getElem_take] at heq
    have := (List.Nodup.getElem_inj_iff (rowMajorCells_nodup w h)).mp heq
    omega

/-- Witness for C10 at `w = h = 2`, `k = 2` with the constant stream
`1/10`. -/
theorem occupiedCheck_unreachable_witness :
    (rowMajorCells 2 2).Nodup ∧
    (rowMajorCells 2 2).getD 2 (0, 0) ∉
      (((rowMajorCells 2 2).take 2).foldl
        (featureCellStep [[TerrainTileType.GRASS, TerrainTileType.GRASS],
          [TerrainTileType.GRASS, TerrainTileType.GRASS]])
        (⟨[], []⟩, ⟨fun _ => 1/10, 0⟩)).1.occupied :=
  occupiedCheck_unreachable
    [[TerrainTileType.GRASS, TerrainTileType.GRASS],
      [TerrainTileType.GRASS, TerrainTileType.GRASS]]
    ⟨fun _ => 1/10, 0⟩ 2 2 2 (by decide)

/-! ## C7: snapshot semantics of water refinement -/

/-- The random-stream state at the moment the refinement loop reaches cell
`(x, y)`: all cells of the rows before `y` and the first `x` cells of row
`y` have taken their draws.  A function of the pre-refinement grid and
the initial stream only. -/
def refineRngAt (m : List (List TerrainTileType)) (w h x y : ℕ)
    (rng : Rng) : Rng :=
  (List.range x).foldl (fun r x2 => (refineCell m w h x2 y r).2)
    ((List.range y).foldl
      (fun r y2 => (List.range w).foldl
        (fun r2 x2 => (refineCell m w h x2 y2 r2).2) r) rng)

theorem range_getD {n i : ℕ} (h : i < n) : (List.range n).getD i 0 = i := by
  rw [List.getD_eq_getElem _ _ (by simpa using h)]
  exact List.getElem_range _ _

/-- C7 (Snapshot semantics): every cell of the grid produced by
`refineWaterBodies` equals the per-cell decision `refineCell` computed
from the pre-refinement grid `m` alone (neighbor counts and the
currently-Water test read `m`, never another cell's refinement outcome),
at a stream state that is itself a function of `m` and the initial stream
only; all decisions are applied together in the output. -/
theorem refineWaterBodies_snapshot (m : List (List TerrainTileType))
    (rng : Rng) {g : List (List TerrainTileType)} {rng2 : Rng}
    (hsome : refineWaterBodies m rng = some (g, rng2))
    (x y : ℕ) (hy : y < m.length) (hx : x < (m.headD []).length) :
    terrainGet g y x =
      (refineCell m (m.headD []).length m.length x y
        (refineRngAt m (m.headD []).length m.length x y rng)).1 := by
  rcases hq : m.head? with - | row0
  · rw [refineWaterBodies, hq] at hsome
    exact absurd hsome (by simp)
  · rw [refineWaterBodies, hq] at hsome
    simp only [Option.some_inj] at hsome
    have hd : m.headD [] = row0 := by
      rw [List.headD_eq_head?_getD, hq]
      rfl
    rw [hd] at hx ⊢
    have hg : g = (threadMap (fun y rng =>
        threadMap (fun x rng => refineCell m row0.length m.length x y rng)
          (List.range row0.length) rng) (List.range m.length) rng).1 := by
      rw [hsome]
    rw [terrainGet, hg]
    rw [threadMap_fst_getD _ (List.range m.length) rng y
      (by simpa using hy) [] 0]
    rw [range_getD hy]
    rw [threadMap_fst_getD _ (List.range row0.length) _ x
      (by simpa using hx) TerrainTileType.GRASS 0]
    rw [range_getD hx]
    congr 1
    rw [refineRngAt]
    simp only [threadMap_snd]
    rw [List.take_range, List.take_range,
      min_eq_left (le_of_lt hy), min_eq_left (le_of_lt hx)]

/-- Witness for C7 on the 1×1 grid `[[GRASS]]` at cell `(0, 0)`. -/
theorem refineWaterBodies_snapshot_witness :
    terrainGet [[TerrainTileType.GRASS]] 0 0 =
      (refineCell [[TerrainTileType.GRASS]] 1 1 0 0
        (refineRngAt [[TerrainTileType.GRASS]] 1 1 0 0
          ⟨fun _ => 1/10, 0⟩)).1 := by
  have hsome : refineWaterBodies [[TerrainTileType.GRASS]]
      ⟨fun _ => 1/10, 0⟩ =
      some ([[TerrainTileType.GRASS]], ⟨fun _ => 1/10, 0⟩) := rfl
  exact refineWaterBodies_snapshot [[TerrainTileType.GRASS]]
    ⟨fun _ => 1/10, 0⟩ hsome 0 0 (by decide) (by decide)
